import Mathlib

/-!
# Verification of the `urlcheck` CLI tool

Shallow embedding of the core of the `urlcheck` program: the result model,
URL validation (over a model of Go's `net/url.Parse` restricted to the
scheme and host components), the single-target checker `checkURL` with its
retry/backoff loop, the concurrent dispatcher `checkURLs`, the startup
configuration validation, and the console printer `printResult`.

Effects are made explicit:
* the HTTP transport is an oracle `Transport` giving the outcome of the
  k-th `client.Get` call of a check (a status code plus the outcome that a
  later `io.ReadAll` of the body would have);
* wall-clock measurement (`time.Since`) is an `elapsed` oracle value;
* `time.Sleep` calls and `Get` attempts are recorded in an explicit `Trace`;
* the nondeterministic completion order of the goroutines spawned by
  `checkURLs` is an explicit `order` parameter: the source's goroutines each
  send their result on a shared channel, and the receive loop fills the
  result slice in the order those sends happened, so `order` is the list of
  input indices in completion order.
-/

/-- `URLResult` from the source: the check result for a single URL.
`statusCode` is Go's `int` (values produced are HTTP status codes or 0),
`responseTime` is `time.Duration` in nanoseconds (non-negative here, as it
is produced by `time.Since` with a monotonic clock), `error` is the `Error`
string field (empty string means no error). -/
structure URLResult where
  url : String
  statusCode : Int
  responseTime : Nat
  keywordFound : Bool
  error : String
deriving Repr, DecidableEq

/-- Transport-level outcome of one successful HTTP GET: the response status
code together with the outcome that reading the whole body (`io.ReadAll`)
would produce for this response. -/
structure HTTPResponse where
  statusCode : Int
  body : Except String String
deriving Repr

/-- Transport oracle: the outcome of the k-th `c.client.Get(rawURL)` call
(0-based) made by one run of `checkURL`: either a transport error message or
a response. -/
abbrev Transport : Type := Nat → Except String HTTPResponse

/-! ## String helpers modelling the Go standard library fragments used -/

def isUpperAscii (c : Char) : Bool := 'A' ≤ c && c ≤ 'Z'

def isLowerAscii (c : Char) : Bool := 'a' ≤ c && c ≤ 'z'

def isDigitAscii (c : Char) : Bool := '0' ≤ c && c ≤ '9'

/-- `strings.ToLower` on a character, restricted to ASCII (the inputs
exercised here are ASCII; Go's full Unicode case mapping agrees with this on
ASCII). -/
def goToLowerChar (c : Char) : Char :=
  if isUpperAscii c then Char.ofNat (c.toNat + 32) else c

/-- `strings.ToLower`, restricted to ASCII. -/
def goToLower (s : String) : String := String.mk (s.toList.map goToLowerChar)

/-- Split a character list at the first occurrence of `c`: returns the part
before it and the part after it (the whole list and `[]` when `c` is
absent). Models `strings.Cut`. -/
def cutList (c : Char) : List Char → List Char × List Char
  | [] => ([], [])
  | x :: xs =>
    if x == c then ([], xs)
    else
      let p := cutList c xs
      (x :: p.1, p.2)

/-- `strings.HasPrefix` on character lists (first argument: the list, second:
the candidate leading segment). -/
def listStartsWith : List Char → List Char → Bool
  | _, [] => true
  | [], _ :: _ => false
  | a :: as, b :: bs => a == b && listStartsWith as bs

/-- Substring occurrence test on character lists, as in `strings.Contains`. -/
def containsSubList : List Char → List Char → Bool
  | [], sub => sub.isEmpty
  | c :: rest, sub => listStartsWith (c :: rest) sub || containsSubList rest sub

/-- `strings.Contains`. -/
def goContains (s sub : String) : Bool := containsSubList s.toList sub.toList

/-! ## Model of `net/url.Parse` (scheme and host components) -/

/-- The components of a parsed URL that `validateURL` inspects. -/
structure GoURL where
  scheme : String
  host : String
deriving Repr, DecidableEq

/-- `getScheme` from `net/url`: scan the URL for a scheme ending in a colon.
A scheme is letters, then letters/digits/`+`/`-`/`.`; on any other character
(or a leading digit-class character) there is no scheme and the whole input
is the rest. A colon at position 0 is the parse error
"missing protocol scheme". The first list argument is the original raw URL
(returned as the rest when there is no scheme), the second accumulates the
scheme characters read so far, the third is the remaining input. -/
def getSchemeAux (raw : List Char) : List Char → List Char → Except String (List Char × List Char)
  | _, [] => .ok ([], raw)
  | acc, c :: rest =>
    if isUpperAscii c || isLowerAscii c then getSchemeAux raw (acc ++ [c]) rest
    else if isDigitAscii c || c == '+' || c == '-' || c == '.' then
      if acc.isEmpty then .ok ([], raw) else getSchemeAux raw (acc ++ [c]) rest
    else if c == ':' then
      if acc.isEmpty then .error "missing protocol scheme"
      else .ok (acc, rest)
    else .ok ([], raw)

/-- `stringContainsCTLByte` from `net/url`: a byte below space or DEL. -/
def containsCTL (s : List Char) : Bool := s.any (fun c => c.toNat < 32 || c.toNat == 127)

/-- The host part of an authority: everything after the last `@`
(`parseAuthority` splits userinfo from host at the last `@`; host-shape
validation such as bracket or port checking is not modelled — the hosts
exercised here are plain names). -/
def hostFromAuthority (authority : List Char) : List Char :=
  (authority.reverse.takeWhile (fun c => c != '@')).reverse

/-- `strconv.Quote`, restricted to strings with no character needing an
escape (as used by `url.Error.Error` to quote the offending URL). -/
def goQuote (s : String) : String := "\"" ++ s ++ "\""

/-- The body of `net/url.parse` (with `viaRequest = false`), restricted to
producing the `Scheme` and `Host` components and the parse errors that can
arise before they are set: control-character check, `getScheme` with the
scheme lowercased, query stripped at the first `?` (both branches of Go's
force-query special case leave the pre-`?` text as the rest), then either an
opaque/path-only URL (empty host) or an authority section `//.../` whose
host is the part after the last `@`. The fragment has already been removed
by the caller. -/
def goURLParseCore (noFrag : List Char) : Except String GoURL :=
  if containsCTL noFrag then .error "net/url: invalid control character in URL"
  else if noFrag == ['*'] then .ok ⟨"", ""⟩
  else
    match getSchemeAux noFrag [] noFrag with
    | .error e => .error e
    | .ok (scheme0, afterScheme) =>
      let scheme := goToLower (String.mk scheme0)
      let rest := (cutList '?' afterScheme).1
      if listStartsWith rest ['/'] then
        if listStartsWith rest ['/', '/']
            && (scheme != "" || !(listStartsWith rest ['/', '/', '/'])) then
          let authority := (cutList '/' (rest.drop 2)).1
          .ok ⟨scheme, String.mk (hostFromAuthority authority)⟩
        else .ok ⟨scheme, ""⟩
      else
        if scheme ≠ "" then .ok ⟨scheme, ""⟩
        else
          let segment := (cutList '/' rest).1
          if segment.contains ':' then .error "first path segment in URL cannot contain colon"
          else .ok ⟨scheme, ""⟩

/-- `net/url.Parse`: cut the fragment at the first `#`, run the parser, and
wrap any parse error in `url.Error`'s rendering
`parse "<rawURL>": <inner error>`. -/
def goURLParse (rawURL : String) : Except String GoURL :=
  match goURLParseCore (cutList '#' rawURL.toList).1 with
  | .error e => .error ("parse " ++ goQuote rawURL ++ ": " ++ e)
  | .ok u => .ok u

/-! ## validateURL -/

/-- `validateURL` from the source: `none` means the URL is well-formed,
`some msg` is the error message returned. -/
def validateURL (rawURL : String) : Option String :=
  if rawURL = "" then some "URL is empty"
  else
    match goURLParse rawURL with
    | .error e => some ("invalid URL: " ++ e)
    | .ok u =>
      if u.scheme ≠ "http" ∧ u.scheme ≠ "https" then some "URL must use http or https scheme"
      else if u.host = "" then some "URL must have a valid host"
      else none

/-! ## checkURL -/

/-- Trace of the observable effects of one `checkURL` run: how many
`client.Get` calls were made, the `time.Sleep` durations performed between
attempts (in milliseconds, in order), and whether the body was read
(`none` = `io.ReadAll` never called, `some true` = read succeeded,
`some false` = read failed). -/
structure Trace where
  attempts : Nat
  sleepsMs : List Nat
  bodyRead : Option Bool
deriving Repr, DecidableEq

/-- The retry loop of `checkURL`
(`for attempt := 0; attempt <= c.retries; attempt++`), with
`remaining = c.retries - attempt`. Returns the last `Get` outcome, the
number of `Get` calls made, and the sleeps performed
(`time.Sleep((attempt+1) * 500ms)` after each failed non-final attempt). -/
def retryGo (get : Transport) : Nat → Nat → Except String HTTPResponse × Nat × List Nat
  | attempt, 0 =>
    match get attempt with
    | .ok resp => (.ok resp, 1, [])
    | .error e => (.error e, 1, [])
  | attempt, r + 1 =>
    match get attempt with
    | .ok resp => (.ok resp, 1, [])
    | .error _ =>
      let p := retryGo get (attempt + 1) r
      (p.1, p.2.1 + 1, (attempt + 1) * 500 :: p.2.2)

/-- `checkURL` from the source: validate, then retry `client.Get` up to
`retries + 1` times, then status/response-time recording and the optional
case-insensitive keyword search over the body. `elapsed` is the
`time.Since(start)` measurement observed when a response was obtained. -/
def checkURL (retries : Nat) (rawURL keyword : String) (get : Transport) (elapsed : Nat) :
    URLResult × Trace :=
  match validateURL rawURL with
  | some msg => (⟨rawURL, 0, 0, false, msg⟩, ⟨0, [], none⟩)
  | none =>
    let p := retryGo get 0 retries
    match p.1 with
    | .error e =>
      (⟨rawURL, 0, 0, false, "failed after " ++ toString (retries + 1) ++ " retries: " ++ e⟩,
       ⟨p.2.1, p.2.2, none⟩)
    | .ok resp =>
      if keyword = "" then
        (⟨rawURL, resp.statusCode, elapsed, false, ""⟩, ⟨p.2.1, p.2.2, none⟩)
      else
        match resp.body with
        | .error e =>
          (⟨rawURL, resp.statusCode, elapsed, false, "error reading body: " ++ e⟩,
           ⟨p.2.1, p.2.2, some false⟩)
        | .ok b =>
          (⟨rawURL, resp.statusCode, elapsed,
            goContains (goToLower b) (goToLower keyword), ""⟩,
           ⟨p.2.1, p.2.2, some true⟩)

/-! ## checkURLs -/

/-- `checkURLs` from the source. Each goroutine runs `checkURL` on its URL
and sends the result on `resultChan`; the receive loop then fills
`results[0..n-1]` with the channel's contents in send order. `order` is the
completion (send) order of the goroutines, as a list of input indices; the
`idx` parameter of the goroutine closure is unused in the source, so the
slot a result lands in is its position in `order`, not its input index.
`get` and `elapsed` are the per-URL transport and clock oracles. -/
def checkURLs (retries : Nat) (urls : List String) (keyword : String)
    (get : String → Transport) (elapsed : String → Nat)
    (order : List (Fin urls.length)) : List URLResult :=
  order.map (fun i =>
    (checkURL retries (urls.get i) keyword (get (urls.get i)) (elapsed (urls.get i))).1)

/-! ## Startup configuration validation -/

/-- The global flag values of the root command. -/
structure Config where
  timeoutSeconds : Int
  retries : Int
  outputFormat : String
deriving Repr, DecidableEq

/-- The body of `rootCmd.PersistentPreRun` in `main`: `some msg` models
printing `msg` followed by `os.Exit(1)`; `none` models falling through into
command execution. -/
def persistentPreRunCheck (cfg : Config) : Option String :=
  if cfg.timeoutSeconds ≤ 0 then some "Error: timeout must be positive"
  else if cfg.retries < 0 then some "Error: retries cannot be negative"
  else if cfg.outputFormat ≠ "csv" ∧ cfg.outputFormat ≠ "json" then
    some "Error: output format must be 'csv' or 'json'"
  else none

/-- The persistent pre-run hooks a cobra command can carry. -/
structure CobraHooks where
  persistentPreRun : Option (Config → Option String)
  persistentPreRunE : Option (Config → Option String)

/-- Cobra's hook dispatch in `Command.execute`: on a given command,
`PersistentPreRunE` takes precedence and `PersistentPreRun` runs only when
no `PersistentPreRunE` is set. -/
def runPersistentPre (h : CobraHooks) (cfg : Config) : Option String :=
  match h.persistentPreRunE with
  | some f => f cfg
  | none =>
    match h.persistentPreRun with
    | some f => f cfg
    | none => none

/-- The root command's hooks as assigned in `main`: `PersistentPreRun` is
the configuration validation; `PersistentPreRunE`, assigned afterwards to
build the `URLChecker` from the parsed flags, always returns `nil`. -/
def rootCmdHooks : CobraHooks :=
  { persistentPreRun := some persistentPreRunCheck
    persistentPreRunE := some (fun _ => none) }

/-! ## printResult -/

/-- `fmtFrac` from Go's `time`: format the `prec` least significant decimal
digits of `v` as a fraction, omitting trailing zeros (and the dot when all
are zero), and return the remaining value `v / 10^prec`. Digits are
produced least significant first and prepended to `acc`. -/
def fmtFrac : Nat → Nat → Bool → List Char → List Char × Nat
  | v, 0, print, acc => (if print then '.' :: acc else acc, v)
  | v, p + 1, print, acc =>
    let d := v % 10
    let pr := print || decide (d ≠ 0)
    fmtFrac (v / 10) p pr (if pr then Nat.digitChar d :: acc else acc)

/-- `time.Duration.String` for non-negative durations (nanoseconds):
sub-second durations use `ns`/`µs`/`ms` with the fraction from `fmtFrac`;
otherwise seconds with up to 9 fractional digits, then minutes and hours
when nonzero. -/
def durationString (u : Nat) : String :=
  if u = 0 then "0s"
  else if u < 1000000000 then
    if u < 1000 then toString u ++ "ns"
    else if u < 1000000 then
      let p := fmtFrac u 3 false []
      toString p.2 ++ String.mk p.1 ++ "µs"
    else
      let p := fmtFrac u 6 false []
      toString p.2 ++ String.mk p.1 ++ "ms"
  else
    let p := fmtFrac u 9 false []
    let secs := p.2
    if secs / 60 = 0 then toString secs ++ String.mk p.1 ++ "s"
    else
      let mins := secs / 60
      if mins / 60 = 0 then
        toString mins ++ "m" ++ toString (secs % 60) ++ String.mk p.1 ++ "s"
      else
        toString (mins / 60) ++ "h" ++ toString (mins % 60) ++ "m"
          ++ toString (secs % 60) ++ String.mk p.1 ++ "s"

/-- `printResult` from the source, returning the full text printed to
standard output for one result. -/
def printResult (r : URLResult) : String :=
  if r.error ≠ "" then r.url ++ ": Error - " ++ r.error ++ "\n"
  else
    r.url ++ ": Status=" ++ toString r.statusCode ++ ", ResponseTime="
      ++ durationString r.responseTime
      ++ (if r.keywordFound then ", Keyword=Found"
          else if r.statusCode = 200 then ", Keyword=NotFound" else "")
      ++ "\n"

/-! ## Helper instances and lemmas -/

instance {α β : Type} [DecidableEq α] [DecidableEq β] : DecidableEq (Except α β) :=
  fun x y =>
    match x, y with
    | .error a, .error b =>
      if h : a = b then .isTrue (by rw [h]) else .isFalse (by simp [h])
    | .ok a, .ok b =>
      if h : a = b then .isTrue (by rw [h]) else .isFalse (by simp [h])
    | .error _, .ok _ => .isFalse (by simp)
    | .ok _, .error _ => .isFalse (by simp)

theorem append_ne_empty_left (s t : String) (h : s ≠ "") : s ++ t ≠ "" := by
  intro h0
  apply h
  have hd : s.data ++ t.data = ("" : String).data := by
    rw [← String.data_append, h0]
  have hs : s.data = [] := (List.append_eq_nil.mp hd).1
  exact String.ext (by simp [hs])

/-! ## C3: validateURL -/

/-- C3: `validateURL` fails on the empty string with the EmptyURL error
("URL is empty"), fails when the parsed scheme is anything other than
"http" or "https" with the UnsupportedScheme error (e.g. "ftp://host"),
fails when the parsed host is empty with the MissingHost error
(e.g. "http://"), and succeeds for every URL string whose parsed scheme is
http or https and whose host is non-empty; it is a pure syntactic check
(the embedding is an effect-free function, so no network I/O occurs). -/
theorem validateURL_spec (s : String) (u : GoURL) :
    validateURL "" = some "URL is empty" ∧
    validateURL "ftp://host" = some "URL must use http or https scheme" ∧
    validateURL "http://" = some "URL must have a valid host" ∧
    (s ≠ "" → goURLParse s = .ok u → u.scheme ≠ "http" → u.scheme ≠ "https" →
      validateURL s = some "URL must use http or https scheme") ∧
    (s ≠ "" → goURLParse s = .ok u → (u.scheme = "http" ∨ u.scheme = "https") → u.host = "" →
      validateURL s = some "URL must have a valid host") ∧
    (s ≠ "" → goURLParse s = .ok u → (u.scheme = "http" ∨ u.scheme = "https") → u.host ≠ "" →
      validateURL s = none) := by
  refine ⟨by decide, by decide, by decide, ?_, ?_, ?_⟩
  · intro hs hp h1 h2
    simp only [validateURL, if_neg hs, hp]
    rw [if_pos ⟨h1, h2⟩]
  · intro hs hp h1 h2
    have hn : ¬(u.scheme ≠ "http" ∧ u.scheme ≠ "https") := by
      rcases h1 with h | h <;> simp [h]
    simp only [validateURL, if_neg hs, hp]
    rw [if_neg hn, if_pos h2]
  · intro hs hp h1 h2
    have hn : ¬(u.scheme ≠ "http" ∧ u.scheme ≠ "https") := by
      rcases h1 with h | h <;> simp [h]
    simp only [validateURL, if_neg hs, hp]
    rw [if_neg hn, if_neg h2]

/-- C3 witness: the three general clauses of `validateURL_spec` discharged
at concrete URLs. -/
theorem validateURL_spec_witness :
    validateURL "http://example.com" = none ∧
    validateURL "gopher://x" = some "URL must use http or https scheme" ∧
    validateURL "https://user@" = some "URL must have a valid host" := by
  refine ⟨?_, ?_, ?_⟩
  · exact (validateURL_spec "http://example.com" ⟨"http", "example.com"⟩).2.2.2.2.2
      (by decide) (by decide) (Or.inl rfl) (by decide)
  · exact (validateURL_spec "gopher://x" ⟨"gopher", "x"⟩).2.2.2.1
      (by decide) (by decide) (by decide) (by decide)
  · exact (validateURL_spec "https://user@" ⟨"https", ""⟩).2.2.2.2.1
      (by decide) (by decide) (Or.inr rfl) rfl

/-! ## C1: dispatcher result order -/

/-- C1: counter to the index-preservation contract, `checkURLs` stores
results in goroutine completion order. With two URLs and the completion
order reversed (the second check finishing first, a legal schedule:
`[1, 0]` is a permutation of the index list), the result list carries the
URLs in reversed order, so `results[0].url ≠ urls[0]`. The `idx` parameter
of the goroutine closure is unused in the source, which is what drops the
index correlation. -/
theorem checkURLs_completion_order_bug :
    [(⟨1, by decide⟩ : Fin 2), ⟨0, by decide⟩].Perm (List.finRange 2) ∧
    (checkURLs 0 ["http://a.example", "http://b.example"] ""
        (fun _ _ => Except.error "connection refused") (fun _ => 0)
        [(⟨1, by decide⟩ : Fin 2), ⟨0, by decide⟩]).map URLResult.url
      = ["http://b.example", "http://a.example"] := by
  constructor
  · decide
  · decide

/-! ## C2: startup configuration validation -/

/-- C2 (code bug): the startup validation of the configuration never runs.
`main` assigns both `PersistentPreRun` (the validation) and, afterwards,
`PersistentPreRunE` (checker construction, always succeeding); cobra runs
only `PersistentPreRunE` when both are set. So for the invalid
configuration `timeout = 0` the program raises no fatal error and proceeds,
even though the (dead) validation body would have rejected it. -/
theorem configValidationNeverRuns :
    persistentPreRunCheck ⟨0, 0, "csv"⟩ = some "Error: timeout must be positive" ∧
    runPersistentPre rootCmdHooks ⟨0, 0, "csv"⟩ = none := by
  constructor
  · decide
  · rfl

/-! ## Retry loop lemmas -/

theorem retryGo_all_error_fst (errs : Nat → String) (attempt remaining : Nat) :
    (retryGo (fun k => Except.error (errs k)) attempt remaining).1
      = Except.error (errs (attempt + remaining)) := by
  induction remaining generalizing attempt with
  | zero => simp [retryGo]
  | succ r ih =>
    simp only [retryGo, ih (attempt + 1)]
    have h1 : attempt + 1 + r = attempt + (r + 1) := by omega
    rw [h1]

theorem retryGo_all_error_attempts (errs : Nat → String) (attempt remaining : Nat) :
    (retryGo (fun k => Except.error (errs k)) attempt remaining).2.1 = remaining + 1 := by
  induction remaining generalizing attempt with
  | zero => simp [retryGo]
  | succ r ih => simp only [retryGo, ih (attempt + 1)]

theorem retryGo_shape (get : Transport) (attempt remaining : Nat) :
    ∃ n, (retryGo get attempt remaining).2.1 = n + 1 ∧
      (retryGo get attempt remaining).2.2
        = (List.range n).map (fun i => (attempt + i + 1) * 500) := by
  induction remaining generalizing attempt with
  | zero =>
    refine ⟨0, ?_, ?_⟩ <;> cases h : get attempt <;> simp [retryGo, h]
  | succ r ih =>
    cases h : get attempt with
    | ok resp => refine ⟨0, ?_, ?_⟩ <;> simp [retryGo, h]
    | error e =>
      obtain ⟨n, h1, h2⟩ := ih (attempt + 1)
      refine ⟨n + 1, ?_, ?_⟩
      · simp only [retryGo, h, h1]
      · simp only [retryGo, h, h2]
        rw [List.range_succ_eq_map, List.map_cons, List.map_map]
        simp only [List.cons.injEq]
        refine ⟨by simp, ?_⟩
        apply List.map_congr_left
        intro i _
        simp only [Function.comp_apply, Nat.succ_eq_add_one]
        omega

theorem retryGo_ok_from_get (get : Transport) (attempt remaining : Nat) (resp : HTTPResponse)
    (h : (retryGo get attempt remaining).1 = .ok resp) : ∃ k, get k = .ok resp := by
  induction remaining generalizing attempt with
  | zero =>
    cases hg : get attempt with
    | ok r0 =>
      refine ⟨attempt, ?_⟩
      simp [retryGo, hg] at h
      rw [hg, h]
    | error e => simp [retryGo, hg] at h
  | succ r ih =>
    cases hg : get attempt with
    | ok r0 =>
      refine ⟨attempt, ?_⟩
      simp [retryGo, hg] at h
      rw [hg, h]
    | error e =>
      simp only [retryGo, hg] at h
      exact ih (attempt + 1) h

theorem checkURL_trace_eq (retries : Nat) (rawURL keyword : String) (get : Transport)
    (elapsed : Nat) (hv : validateURL rawURL = none) :
    (checkURL retries rawURL keyword get elapsed).2.attempts = (retryGo get 0 retries).2.1 ∧
    (checkURL retries rawURL keyword get elapsed).2.sleepsMs = (retryGo get 0 retries).2.2 := by
  simp only [checkURL, hv]
  cases hr : (retryGo get 0 retries).1 with
  | error e => simp [hr]
  | ok resp =>
    by_cases hk : keyword = ""
    · simp [hr, hk]
    · cases hb : resp.body <;> simp [hr, hk, hb]

/-! ## C4: exhausted retries -/

/-- C4: when every `client.Get` attempt fails at the transport level,
`checkURL` makes exactly `retries + 1` attempts and returns a result whose
error message reports that number of attempts together with the error of
the last attempt, and whose status code is 0. -/
theorem checkURL_transport_exhausted (retries : Nat) (rawURL keyword : String)
    (errs : Nat → String) (elapsed : Nat) (hv : validateURL rawURL = none) :
    (checkURL retries rawURL keyword (fun k => Except.error (errs k)) elapsed).2.attempts
        = retries + 1 ∧
    (checkURL retries rawURL keyword (fun k => Except.error (errs k)) elapsed).1.error
        = "failed after " ++ toString (retries + 1) ++ " retries: " ++ errs retries ∧
    (checkURL retries rawURL keyword (fun k => Except.error (errs k)) elapsed).1.statusCode
        = 0 := by
  have hf := retryGo_all_error_fst errs 0 retries
  have ha := retryGo_all_error_attempts errs 0 retries
  rw [Nat.zero_add] at hf
  simp [checkURL, hv, hf, ha]

/-- C4 witness: with `retries = 2` and an always-failing transport, exactly
3 attempts are made and the message reports "3" with the last error. -/
theorem checkURL_transport_exhausted_witness :
    (checkURL 2 "http://example.com" "" (fun _ => Except.error "connection refused") 0).2.attempts
        = 2 + 1 ∧
    (checkURL 2 "http://example.com" "" (fun _ => Except.error "connection refused") 0).1.error
        = "failed after " ++ toString (2 + 1) ++ " retries: " ++ "connection refused" ∧
    (checkURL 2 "http://example.com" "" (fun _ => Except.error "connection refused") 0).1.statusCode
        = 0 :=
  checkURL_transport_exhausted 2 "http://example.com" ""
    (fun _ => "connection refused") 0 (by decide)

/-! ## C5: linear backoff -/

/-- C5: the sleeps one `checkURL` run performs are exactly one per failed
non-final attempt, of `(attemptIndex + 1) * 500` milliseconds each (500ms,
1000ms, ...): the sleep list is the linear ramp over the first
`attempts - 1` indices, so no sleep ever follows the final attempt, and
with `retries = 0` a failing single attempt triggers no sleep at all. -/
theorem checkURL_backoff (retries : Nat) (rawURL keyword : String) (get : Transport)
    (elapsed : Nat) :
    (checkURL retries rawURL keyword get elapsed).2.sleepsMs
      = (List.range ((checkURL retries rawURL keyword get elapsed).2.attempts - 1)).map
          (fun i => (i + 1) * 500) ∧
    (retries = 0 → (checkURL retries rawURL keyword get elapsed).2.sleepsMs = []) := by
  cases hv : validateURL rawURL with
  | some m => simp [checkURL, hv]
  | none =>
    obtain ⟨ht1, ht2⟩ := checkURL_trace_eq retries rawURL keyword get elapsed hv
    obtain ⟨n, hn1, hn2⟩ := retryGo_shape get 0 retries
    constructor
    · rw [ht2, ht1, hn1, hn2]
      have hsub : n + 1 - 1 = n := by omega
      rw [hsub]
      apply List.map_congr_left
      intro i _
      omega
    · intro h0
      subst h0
      rw [ht2]
      cases hg : get 0 <;> simp [retryGo, hg]

/-- C5 witness: with `retries = 0` and a failing transport, no sleep is
performed. -/
theorem checkURL_backoff_witness :
    (checkURL 0 "http://example.com" "" (fun _ => Except.error "refused") 0).2.sleepsMs = [] :=
  (checkURL_backoff 0 "http://example.com" "" (fun _ => Except.error "refused") 0).2 rfl

/-! ## C6: keyword search -/

/-- C6: when a non-empty keyword is supplied and the body is read
successfully, `keywordFound` is exactly the case-insensitive substring test
of the keyword against the body, and the absence of the keyword sets no
error. -/
theorem checkURL_keyword (retries : Nat) (rawURL keyword : String) (get : Transport)
    (elapsed : Nat) (resp : HTTPResponse) (b : String)
    (hv : validateURL rawURL = none) (hk : keyword ≠ "")
    (hget : (retryGo get 0 retries).1 = .ok resp) (hb : resp.body = .ok b) :
    (checkURL retries rawURL keyword get elapsed).1.keywordFound
        = goContains (goToLower b) (goToLower keyword) ∧
    (checkURL retries rawURL keyword get elapsed).1.error = "" := by
  simp [checkURL, hv, hget, hk, hb]

/-- C6 witness: status 200 with body "Hello World" and keyword "HELLO"
yields the case-insensitive test, which is true there and false for
"xyz". -/
theorem checkURL_keyword_witness :
    ((checkURL 0 "http://example.com" "HELLO"
        (fun _ => Except.ok ⟨200, Except.ok "Hello World"⟩) 7).1.keywordFound
      = goContains (goToLower "Hello World") (goToLower "HELLO") ∧
     (checkURL 0 "http://example.com" "HELLO"
        (fun _ => Except.ok ⟨200, Except.ok "Hello World"⟩) 7).1.error = "") ∧
    goContains (goToLower "Hello World") (goToLower "HELLO") = true ∧
    goContains (goToLower "Hello World") (goToLower "xyz") = false := by
  refine ⟨checkURL_keyword 0 "http://example.com" "HELLO"
      (fun _ => Except.ok ⟨200, Except.ok "Hello World"⟩) 7 ⟨200, Except.ok "Hello World"⟩
      "Hello World" (by decide) (by decide) rfl rfl, by decide, by decide⟩

/-! ## C7: error/status exclusivity -/

theorem validateURL_error_nonempty (s m : String) (h : validateURL s = some m) : m ≠ "" := by
  by_cases hs : s = ""
  · rw [hs, show validateURL "" = some "URL is empty" from by decide] at h
    have hm := Option.some.inj h
    subst hm
    decide
  · cases hp : goURLParse s with
    | error e =>
      simp only [validateURL, if_neg hs, hp] at h
      have hm := Option.some.inj h
      subst hm
      exact append_ne_empty_left _ _ (by decide)
    | ok u =>
      simp only [validateURL, if_neg hs, hp] at h
      by_cases h1 : u.scheme ≠ "http" ∧ u.scheme ≠ "https"
      · rw [if_pos h1] at h
        have hm := Option.some.inj h
        subst hm
        decide
      · rw [if_neg h1] at h
        by_cases h2 : u.host = ""
        · rw [if_pos h2] at h
          have hm := Option.some.inj h
          subst hm
          decide
        · rw [if_neg h2] at h
          simp at h

/-- C7: assuming, as `net/http` response parsing guarantees, that every
transport-level success carries a positive status code, each `checkURL`
result lands in exactly one of: failure with no status (error set, status
0), clean success (no error, positive status), or the accepted
partial-result exception in which the body read failed and error is set in
addition to a positive status. In particular a transport failure never
yields a positive status code. -/
theorem checkURL_excl (retries : Nat) (rawURL keyword : String) (get : Transport)
    (elapsed : Nat)
    (hpos : ∀ k resp, get k = .ok resp → 0 < resp.statusCode) :
    ((checkURL retries rawURL keyword get elapsed).1.error ≠ "" ∧
     (checkURL retries rawURL keyword get elapsed).1.statusCode = 0) ∨
    ((checkURL retries rawURL keyword get elapsed).1.error = "" ∧
     0 < (checkURL retries rawURL keyword get elapsed).1.statusCode) ∨
    ((checkURL retries rawURL keyword get elapsed).2.bodyRead = some false ∧
     (checkURL retries rawURL keyword get elapsed).1.error ≠ "" ∧
     0 < (checkURL retries rawURL keyword get elapsed).1.statusCode) := by
  cases hv : validateURL rawURL with
  | some m =>
    left
    have hm : m ≠ "" := validateURL_error_nonempty rawURL m hv
    simp [checkURL, hv, hm]
  | none =>
    cases hr : (retryGo get 0 retries).1 with
    | error e =>
      left
      constructor
      · simp only [checkURL, hv, hr]
        exact append_ne_empty_left _ _
          (append_ne_empty_left _ _ (append_ne_empty_left _ _ (by decide)))
      · simp [checkURL, hv, hr]
    | ok resp =>
      have hsc : 0 < resp.statusCode := by
        obtain ⟨k, hk⟩ := retryGo_ok_from_get get 0 retries resp hr
        exact hpos k resp hk
      by_cases hkw : keyword = ""
      · right; left
        constructor
        · simp [checkURL, hv, hr, hkw]
        · simp [checkURL, hv, hr, hkw, hsc]
      · cases hb : resp.body with
        | error e =>
          right; right
          refine ⟨?_, ?_, ?_⟩
          · simp [checkURL, hv, hr, hkw, hb]
          · simp only [checkURL, hv, hr]
            simp only [if_neg hkw, hb]
            exact append_ne_empty_left _ _ (by decide)
          · simp [checkURL, hv, hr, hkw, hb, hsc]
        | ok b =>
          right; left
          constructor
          · simp [checkURL, hv, hr, hkw, hb]
          · simp [checkURL, hv, hr, hkw, hb, hsc]

/-- C7 witness: a clean success at status 200 falls in the middle
(exclusive) case. -/
theorem checkURL_excl_witness :
    ((checkURL 0 "http://example.com" "" (fun _ => Except.ok ⟨200, Except.ok ""⟩) 5).1.error ≠ "" ∧
     (checkURL 0 "http://example.com" "" (fun _ => Except.ok ⟨200, Except.ok ""⟩) 5).1.statusCode = 0) ∨
    ((checkURL 0 "http://example.com" "" (fun _ => Except.ok ⟨200, Except.ok ""⟩) 5).1.error = "" ∧
     0 < (checkURL 0 "http://example.com" "" (fun _ => Except.ok ⟨200, Except.ok ""⟩) 5).1.statusCode) ∨
    ((checkURL 0 "http://example.com" "" (fun _ => Except.ok ⟨200, Except.ok ""⟩) 5).2.bodyRead = some false ∧
     (checkURL 0 "http://example.com" "" (fun _ => Except.ok ⟨200, Except.ok ""⟩) 5).1.error ≠ "" ∧
     0 < (checkURL 0 "http://example.com" "" (fun _ => Except.ok ⟨200, Except.ok ""⟩) 5).1.statusCode) :=
  checkURL_excl 0 "http://example.com" "" (fun _ => Except.ok ⟨200, Except.ok ""⟩) 5
    (fun _ resp h => by cases h; decide)

/-! ## C8: keywordFound preconditions -/

/-- C8: `keywordFound` is true only when a non-empty keyword was requested
and the response body was read successfully; in every other case (empty
keyword, validation failure, transport failure, body-read failure) it is
false. -/
theorem checkURL_keywordFound_requires (retries : Nat) (rawURL keyword : String)
    (get : Transport) (elapsed : Nat)
    (h : (checkURL retries rawURL keyword get elapsed).1.keywordFound = true) :
    keyword ≠ "" ∧ (checkURL retries rawURL keyword get elapsed).2.bodyRead = some true := by
  cases hv : validateURL rawURL with
  | some m => simp [checkURL, hv] at h
  | none =>
    cases hr : (retryGo get 0 retries).1 with
    | error e => simp [checkURL, hv, hr] at h
    | ok resp =>
      by_cases hkw : keyword = ""
      · simp [checkURL, hv, hr, hkw] at h
      · cases hb : resp.body with
        | error e => simp [checkURL, hv, hr, hkw, hb] at h
        | ok b => exact ⟨hkw, by simp [checkURL, hv, hr, hkw, hb]⟩

/-- C8 witness: a found keyword implies the keyword was non-empty and the
body read succeeded. -/
theorem checkURL_keywordFound_requires_witness :
    "hello" ≠ "" ∧
    (checkURL 0 "http://example.com" "hello"
        (fun _ => Except.ok ⟨200, Except.ok "Hello World"⟩) 7).2.bodyRead = some true :=
  checkURL_keywordFound_requires 0 "http://example.com" "hello"
    (fun _ => Except.ok ⟨200, Except.ok "Hello World"⟩) 7 (by decide)

/-! ## C9: console output format -/

/-- C9: `printResult` emits, for a result with non-empty error, exactly
`"<url>: Error - <message>"` (plus newline) and nothing else; otherwise
`"<url>: Status=<code>, ResponseTime=<duration>"` followed by
`", Keyword=Found"` when the keyword was found, by `", Keyword=NotFound"`
exactly when the status code is 200 and the keyword was not found, and by
no keyword suffix in the remaining cases. -/
theorem printResult_format (r : URLResult) :
    (r.error ≠ "" → printResult r = r.url ++ ": Error - " ++ r.error ++ "\n") ∧
    (r.error = "" → r.keywordFound = true →
      printResult r = r.url ++ ": Status=" ++ toString r.statusCode ++ ", ResponseTime="
        ++ durationString r.responseTime ++ ", Keyword=Found" ++ "\n") ∧
    (r.error = "" → r.keywordFound = false → r.statusCode = 200 →
      printResult r = r.url ++ ": Status=" ++ toString r.statusCode ++ ", ResponseTime="
        ++ durationString r.responseTime ++ ", Keyword=NotFound" ++ "\n") ∧
    (r.error = "" → r.keywordFound = false → r.statusCode ≠ 200 →
      printResult r = r.url ++ ": Status=" ++ toString r.statusCode ++ ", ResponseTime="
        ++ durationString r.responseTime ++ "\n") := by
  refine ⟨?_, ?_, ?_, ?_⟩
  · intro h1
    simp [printResult, h1]
  · intro h1 h2
    simp [printResult, h1, h2]
  · intro h1 h2 h3
    simp [printResult, h1, h2, h3]
  · intro h1 h2 h3
    simp [printResult, h1, h2, h3]

/-- C9 witness: the four output shapes at concrete results. -/
theorem printResult_format_witness :
    printResult ⟨"http://a", 0, 0, false, "boom"⟩
      = "http://a" ++ ": Error - " ++ "boom" ++ "\n" ∧
    printResult ⟨"http://a", 200, 1500000000, true, ""⟩
      = "http://a" ++ ": Status=" ++ toString (200 : Int) ++ ", ResponseTime="
        ++ durationString 1500000000 ++ ", Keyword=Found" ++ "\n" ∧
    printResult ⟨"http://a", 200, 1500000000, false, ""⟩
      = "http://a" ++ ": Status=" ++ toString (200 : Int) ++ ", ResponseTime="
        ++ durationString 1500000000 ++ ", Keyword=NotFound" ++ "\n" ∧
    printResult ⟨"http://a", 404, 1500000000, false, ""⟩
      = "http://a" ++ ": Status=" ++ toString (404 : Int) ++ ", ResponseTime="
        ++ durationString 1500000000 ++ "\n" :=
  ⟨(printResult_format ⟨"http://a", 0, 0, false, "boom"⟩).1 (by decide),
   (printResult_format ⟨"http://a", 200, 1500000000, true, ""⟩).2.1 rfl rfl,
   (printResult_format ⟨"http://a", 200, 1500000000, false, ""⟩).2.2.1 rfl rfl rfl,
   (printResult_format ⟨"http://a", 404, 1500000000, false, ""⟩).2.2.2 rfl rfl (by decide)⟩

/-! ## C10: multiset of dispatcher results -/

/-- C10: for every completion order (any permutation of the index list),
the result list of `checkURLs` is a permutation of — equal as a multiset
to — the list of per-URL `checkURL` results taken in input order, and has
the input's length: every input URL is checked exactly once and no result
is dropped or duplicated. -/
theorem checkURLs_multiset (retries : Nat) (urls : List String) (keyword : String)
    (get : String → Transport) (elapsed : String → Nat)
    (order : List (Fin urls.length)) (h : order.Perm (List.finRange urls.length)) :
    (checkURLs retries urls keyword get elapsed order).Perm
        (urls.map (fun u => (checkURL retries u keyword (get u) (elapsed u)).1)) ∧
    (checkURLs retries urls keyword get elapsed order).length = urls.length := by
  have hmap := h.map
    (fun i => (checkURL retries (urls.get i) keyword (get (urls.get i)) (elapsed (urls.get i))).1)
  have heq : (List.finRange urls.length).map
      (fun i => (checkURL retries (urls.get i) keyword (get (urls.get i)) (elapsed (urls.get i))).1)
      = urls.map (fun u => (checkURL retries u keyword (get u) (elapsed u)).1) := by
    conv_rhs => rw [← List.finRange_map_get urls]
    rw [List.map_map]
    rfl
  constructor
  · rw [heq] at hmap
    exact hmap
  · simp only [checkURLs, List.length_map]
    rw [h.length_eq, List.length_finRange]

/-- C10 witness: two URLs checked with a reversed completion order give a
permutation of the in-order check results, of length 2. -/
theorem checkURLs_multiset_witness :
    (checkURLs 0 ["http://a.example", "http://b.example"] ""
        (fun _ _ => Except.error "refused") (fun _ => 0)
        [(⟨1, by decide⟩ : Fin 2), ⟨0, by decide⟩]).Perm
      (["http://a.example", "http://b.example"].map
        (fun u => (checkURL 0 u "" (fun _ => Except.error "refused") 0).1)) ∧
    (checkURLs 0 ["http://a.example", "http://b.example"] ""
        (fun _ _ => Except.error "refused") (fun _ => 0)
        [(⟨1, by decide⟩ : Fin 2), ⟨0, by decide⟩]).length
      = (["http://a.example", "http://b.example"] : List String).length :=
  checkURLs_multiset 0 ["http://a.example", "http://b.example"] ""
    (fun _ _ => Except.error "refused") (fun _ => 0)
    [⟨1, by decide⟩, ⟨0, by decide⟩] (by decide)
